import Mathlib

/-!
Shallow embedding of the `ecsazrlc` container-activity monitor (Go).

The embedding translates `monitor.go` (the Monitor: classifier, exclusion
filter, inventory scan, Docker-event handler) and `ecs_notifier.go` (the ECS
notifier: activity signal, protection toggle, heartbeat loop) into pure Lean
functions.  Conventions:

* Go strings are Lean `String`s.  Go `s[:12]` slices the first 12 bytes and
  panics when `len(s) < 12`; container identities are ASCII (hex), where
  bytes and characters coincide, so it is embedded as `String.take`/
  `String.length` guarded by `goSlice12`, which returns `none` on the inputs
  where the Go code panics.  Functions that can reach such a panic (or a Go
  out-of-range index like `c.Names[0]` on an empty slice) return `Option`,
  with `none` meaning the Go code panics.
* `strings.Contains`/`strings.ToLower` become `strContains`/`goToLower`
  (the inputs involved are ASCII, where the two lowercasings agree).
* External effects (Docker API, ECS API, the clock) are passed in as explicit
  data (`DockerEnv`, `ECSApi`); `log.Printf` calls become `LogEntry` values
  collected in output lists; sends on the activity channel become the list of
  emitted `ActivityEvent`s.
* `time.Time` values are seconds since the epoch (`Nat`): `time.Now()` is the
  environment's `now`, `time.Unix(event.Time, 0)` is the event's `time` field.
-/

deriving instance DecidableEq for Except

namespace Ecsazrlc

/-- Does `sub` occur as a contiguous sublist starting at some position of the
second argument? -/
def infixOfB (sub : List Char) : List Char → Bool
  | [] => sub.isEmpty
  | c :: rest => sub.isPrefixOf (c :: rest) || infixOfB sub rest

/-- Go `strings.Contains s sub`: `sub` occurs as a contiguous substring of `s`. -/
def strContains (s sub : String) : Bool :=
  infixOfB sub.toList s.toList

/-- Go `strings.ToLower`: lowercase every character (the inputs involved are
ASCII, where Go's Unicode lowercasing agrees with `Char.toLower`). -/
def goToLower (s : String) : String :=
  String.mk (s.toList.map Char.toLower)

/-- Go `strings.TrimPrefix(s, "/")`: drop one leading slash if present. -/
def trimLeadingSlash (s : String) : String :=
  match s.toList with
  | '/' :: rest => String.mk rest
  | _ => s

/-- Go `s[:12]`: the first 12 bytes of `s`, panicking (`none`) when
`len(s) < 12`. -/
def goSlice12 (s : String) : Option String :=
  if 12 ≤ s.length then some (s.take 12) else none

/-- The `types.ContainerJSON.Config` record, restricted to the fields the Monitor reads:
image reference, environment entries (`KEY=value` strings), label map
(embedded as an association list; the Go code only quantifies over entries,
so map iteration order is irrelevant). -/
structure ContainerConfig where
  Image : String
  Env : List String
  Labels : List (String × String)
deriving DecidableEq, Repr

/-- The `ActivityEvent` record from `monitor.go`. -/
structure ActivityEvent where
  ContainerID : String
  ContainerName : String
  ImageName : String
  Action : String
  Timestamp : Nat
  IsAzureAgent : Bool
deriving DecidableEq, Repr

/-- The Monitor's exclusion configuration (`excludeContainers`,
`excludeImages` fields of `Monitor`). -/
structure MonitorCfg where
  excludeContainers : List String
  excludeImages : List String
deriving DecidableEq, Repr

/-- One `log.Printf` call issued by the Monitor, tagged by call site. -/
inductive LogEntry where
  /-- Log line "Container %s (%s) excluded by container filter: %s". -/
  | excludedByContainer (name id12 rule : String)
  /-- Log line "Container %s (%s) excluded by image filter: %s". -/
  | excludedByImage (name id12 rule : String)
  /-- Log line "Warning: failed to inspect container %s: %v" (inventory scan). -/
  | inventoryInspectWarn (id : String)
  /-- Log line "Container %s already removed" (terminal action, vanished container). -/
  | alreadyRemoved (id12 : String)
  /-- Log line "Failed to inspect container %s: %v" (non-terminal action). -/
  | inspectFailed (id12 : String)
  /-- Log line "Azure Agent Activity: %s - %s [%s]". -/
  | activity (action name id12 : String)
deriving DecidableEq, Repr

/-- Whether a log entry reports a failure at warning level (its message says
"Warning"/"Failed"), as opposed to informational lines. -/
def isWarning : LogEntry → Bool
  | .inventoryInspectWarn _ => true
  | .inspectFailed _ => true
  | _ => false

/-- Function `Monitor.isExcluded` from `monitor.go`.  Walks `excludeContainers` then
`excludeImages`, returning `true` at the first match; the log line at a match
slices `containerID[:12]`, so a match with a short identity panics (`none`). -/
def isExcluded (m : MonitorCfg) (containerID containerName imageName : String) :
    Option (Bool × List LogEntry) :=
  match m.excludeContainers.find?
      (fun excluded => strContains containerName excluded || strContains containerID excluded) with
  | some excluded =>
    (goSlice12 containerID).map
      (fun id12 => (true, [LogEntry.excludedByContainer containerName id12 excluded]))
  | none =>
    match m.excludeImages.find? (fun excluded => strContains imageName excluded) with
    | some excluded =>
      (goSlice12 containerID).map
        (fun id12 => (true, [LogEntry.excludedByImage containerName id12 excluded]))
    | none => some (false, [])

/-- Function `Monitor.IsAzureAgentContainer` from `monitor.go`: layered heuristic over
image name, labels, then environment variables. -/
def IsAzureAgentContainer (c : ContainerConfig) : Bool :=
  let imageName := goToLower c.Image
  if strContains imageName "azure" && strContains imageName "agent" then
    true
  else if strContains imageName "azp" || strContains imageName "vsts" then
    true
  else if c.Labels.any (fun kv =>
      let lowerKey := goToLower kv.1
      let lowerValue := goToLower kv.2
      (strContains lowerKey "azure" || strContains lowerValue "azure") &&
        (strContains lowerKey "agent" || strContains lowerValue "agent")) then
    true
  else
    c.Env.any (fun env =>
      let lowerEnv := goToLower env
      strContains lowerEnv "azp_" || strContains lowerEnv "vsts_")

/-- One entry of `dockerClient.ContainerList` output (`types.Container`),
restricted to the fields the Monitor reads. -/
structure ContainerSummary where
  ID : String
  Names : List String
  Image : String
deriving DecidableEq, Repr

/-- The Docker-side collaborators of the Monitor, passed in as data: the
result of `ContainerList` (running containers only), the result of
`ContainerInspect` per container identity, and the current clock
(`time.Now()`, seconds since the epoch). -/
structure DockerEnv where
  containerList : Except String (List ContainerSummary)
  inspect : String → Except String ContainerConfig
  now : Nat

/-- The body of the `for _, c := range containers` loop of
`GetRunningAzureAgents` for one container: trim the leading slash from
`c.Names[0]` (panic on empty `Names`), apply `isExcluded`, inspect (a failure
logs a warning and skips the container), classify, and emit one `running`
event on a match (`c.ID[:12]` panics on a short identity). -/
def scanContainer (env : DockerEnv) (m : MonitorCfg) (c : ContainerSummary) :
    Option (List ActivityEvent × List LogEntry) :=
  match c.Names.head? with
  | none => none
  | some name0 =>
    let name := trimLeadingSlash name0
    match isExcluded m c.ID name c.Image with
    | none => none
    | some (true, logs) => some ([], logs)
    | some (false, logs) =>
      match env.inspect c.ID with
      | .error _ => some ([], logs ++ [LogEntry.inventoryInspectWarn c.ID])
      | .ok containerInfo =>
        if IsAzureAgentContainer containerInfo then
          match goSlice12 c.ID with
          | none => none
          | some id12 =>
            some ([{ ContainerID := id12
                     ContainerName := name
                     ImageName := c.Image
                     Action := "running"
                     Timestamp := env.now
                     IsAzureAgent := true }], logs)
        else
          some ([], logs)

/-- The whole container loop of `GetRunningAzureAgents`, accumulating emitted
events and log lines in order; a panic anywhere aborts the call. -/
def scanContainers (env : DockerEnv) (m : MonitorCfg) :
    List ContainerSummary → Option (List ActivityEvent × List LogEntry)
  | [] => some ([], [])
  | c :: rest =>
    match scanContainer env m c with
    | none => none
    | some (evs, logs) =>
      match scanContainers env m rest with
      | none => none
      | some (evs2, logs2) => some (evs ++ evs2, logs ++ logs2)

/-- Function `Monitor.GetRunningAzureAgents` from `monitor.go`: list running
containers (an API failure is wrapped and returned as an error), then filter
and classify each one. -/
def GetRunningAzureAgents (env : DockerEnv) (m : MonitorCfg) :
    Option (Except String (List ActivityEvent × List LogEntry)) :=
  match env.containerList with
  | .error e => some (.error ("failed to list containers: " ++ e))
  | .ok containers =>
    match scanContainers env m containers with
    | none => none
    | some (agents, logs) => some (.ok (agents, logs))

/-- Function `Monitor.HasActiveAgents` from `monitor.go`: `len(agents) > 0`. -/
def HasActiveAgents (env : DockerEnv) (m : MonitorCfg) :
    Option (Except String Bool) :=
  match GetRunningAzureAgents env m with
  | none => none
  | some (.error e) => some (.error e)
  | some (.ok (agents, _)) => some (.ok (decide (0 < agents.length)))

/-- The synchronous prefix of `Monitor.StartMonitoring` from `monitor.go`:
run the inventory pass; on failure return the wrapped setup error; on success
send every inventory event to the activity channel (the returned event list,
in order) and then subscribe to the live Docker event stream (the subsequent
goroutine is modelled separately through `handleDockerEvent` and
`chanStep`). -/
def StartMonitoringSync (env : DockerEnv) (m : MonitorCfg) :
    Option (Except String (List ActivityEvent × List LogEntry)) :=
  match GetRunningAzureAgents env m with
  | none => none
  | some (.error e) => some (.error ("failed to get initial agents: " ++ e))
  | some (.ok (initialAgents, logs)) => some (.ok (initialAgents, logs))

/-- One `events.Message` from the Docker event stream, restricted to the
fields `handleDockerEvent` reads: whether `event.Type` is the container
event type, the action, the actor identity, the `name`/`image` actor
attributes, and the event-source timestamp `event.Time`. -/
structure DockerEventMsg where
  typeIsContainer : Bool
  action : String
  actorID : String
  attrName : String
  attrImage : String
  time : Nat
deriving DecidableEq, Repr

/-- The keys of the `interestingActions` map in `handleDockerEvent`. -/
def interestingActions : List String :=
  ["start", "die", "stop", "kill", "create", "exec_start"]

/-- Terminal actions of `handleDockerEvent`'s vanished-container check:
`event.Action == "die" || event.Action == "stop" || event.Action == "kill"`. -/
def isTerminalAction (action : String) : Bool :=
  action == "die" || action == "stop" || action == "kill"

/-- Function `Monitor.handleDockerEvent` from `monitor.go`.  Returns the events sent
on the activity channel and the log lines written, or `none` where the Go
code panics (`event.Actor.ID[:12]` on a short identity). -/
def handleDockerEvent (env : DockerEnv) (m : MonitorCfg) (event : DockerEventMsg) :
    Option (List ActivityEvent × List LogEntry) :=
  if !event.typeIsContainer then
    some ([], [])
  else if !(interestingActions.contains event.action) then
    some ([], [])
  else
    match env.inspect event.actorID with
    | .error _ =>
      if isTerminalAction event.action then
        (goSlice12 event.actorID).map (fun id12 => ([], [LogEntry.alreadyRemoved id12]))
      else
        (goSlice12 event.actorID).map (fun id12 => ([], [LogEntry.inspectFailed id12]))
    | .ok containerInfo =>
      match isExcluded m event.actorID event.attrName event.attrImage with
      | none => none
      | some (true, logs) => some ([], logs)
      | some (false, logs) =>
        if IsAzureAgentContainer containerInfo then
          match goSlice12 event.actorID with
          | none => none
          | some id12 =>
            some ([{ ContainerID := id12
                     ContainerName := event.attrName
                     ImageName := event.attrImage
                     Action := event.action
                     Timestamp := event.time
                     IsAzureAgent := true }],
              logs ++ [LogEntry.activity event.action event.attrName id12])
        else
          some ([], logs)

/-! ### Lifecycle notifier (`ecs_notifier.go`) -/

/-- The `ECSNotifier` record, restricted to the fields the modelled operations read. -/
structure ECSNotifier where
  clusterName : String
  containerInstanceARN : String
deriving DecidableEq, Repr

/-- One call made against the ECS control-plane API. -/
inductive ECSApiCall where
  /-- Call `PutAttributes` with the `azure-agent-activity` status and the
  `azure-agent-last-check` timestamp. -/
  | putAttributes (cluster activityStatus : String) (timestamp : Nat)
  /-- Call `UpdateContainerInstancesState` to ACTIVE (`statusActive = true`) or
  DRAINING. -/
  | updateState (cluster arn : String) (statusActive : Bool)
deriving DecidableEq, Repr

/-- The AWS-side collaborators of the notifier: per-operation API outcomes
and the current clock (`time.Now().Unix()`). -/
structure ECSApi where
  putAttributesResult : Except String Unit
  updateStateResult : Except String Unit
  now : Nat

/-- Function `ECSNotifier.SendActivitySignal` from `ecs_notifier.go`.  Returns the
Go error result together with the list of external API calls performed. -/
def SendActivitySignal (api : ECSApi) (n : ECSNotifier) (hasActivity : Bool) :
    Except String Unit × List ECSApiCall :=
  if n.containerInstanceARN == "" then
    (.ok (), [])
  else
    let activityStatus := if hasActivity then "active" else "inactive"
    let call := ECSApiCall.putAttributes n.clusterName activityStatus api.now
    match api.putAttributesResult with
    | .error e => (.error ("failed to put attributes: " ++ e), [call])
    | .ok _ => (.ok (), [call])

/-- Function `ECSNotifier.SetProtectionEnabled` from `ecs_notifier.go`. -/
def SetProtectionEnabled (api : ECSApi) (n : ECSNotifier) (enabled : Bool) :
    Except String Unit × List ECSApiCall :=
  if n.containerInstanceARN == "" then
    (.error "container instance ARN not set", [])
  else
    let call := ECSApiCall.updateState n.clusterName n.containerInstanceARN enabled
    match api.updateStateResult with
    | .error e => (.error ("failed to update instance state: " ++ e), [call])
    | .ok _ => (.ok (), [call])

/-! ### Heartbeat loop (`ecs_notifier.go`, `StartHeartbeat`) -/

/-- One wake-up of the heartbeat loop's `select`: either a ticker tick —
carrying the outcome that `monitor.HasActiveAgents()` and (if reached)
`SendActivitySignal` produce at that tick — or the stop channel firing. -/
inductive HBEvent where
  | tick (hasAgentsResult : Except String Bool) (sendResult : Except String Unit)
  | stop

/-- Is a heartbeat wake-up a ticker tick? -/
def isTick : HBEvent → Bool
  | .tick _ _ => true
  | .stop => false

/-- The observable calls the heartbeat loop makes per tick. -/
inductive HBCall where
  | hasActiveAgents
  | sendActivitySignal (hasActivity : Bool)
deriving DecidableEq, Repr

/-- Function `ECSNotifier.StartHeartbeat` from `ecs_notifier.go`, driven by a finite
schedule of wake-ups.  Each tick calls `monitor.HasActiveAgents()`; on error
it logs and continues; on success it calls `SendActivitySignal` with the
result (whose own error is only logged).  A stop wake-up returns from the
loop; exhausting the schedule leaves the loop still running (second
component `false`). -/
def StartHeartbeat : List HBEvent → List HBCall × Bool
  | [] => ([], false)
  | HBEvent.stop :: _ => ([], true)
  | HBEvent.tick hasAgentsResult _ :: rest =>
    match hasAgentsResult with
    | .error _ =>
      let r := StartHeartbeat rest
      (HBCall.hasActiveAgents :: r.1, r.2)
    | .ok hasActivity =>
      let r := StartHeartbeat rest
      (HBCall.hasActiveAgents :: HBCall.sendActivitySignal hasActivity :: r.1, r.2)

/-! ### Channel-shutdown interleaving model (`Stop` vs the event goroutine)

`Monitor.Stop` runs `cancel()` and then `close(activityChan)` without
synchronising with the stream-consumption goroutine started by
`StartMonitoring`, and `handleDockerEvent` sends on `activityChan` without
re-checking the context.  The model below is a small transition system over
those program points: the goroutine is either at its `select` (`selecting`),
inside `handleDockerEvent` about to send (`handling`), or exited; `Stop`
contributes the `stopCancel` and `stopClose` steps in that order.  A
`goSend` while `closed` is the Go runtime panic "send on closed channel". -/

inductive GoPC where
  | selecting
  | handling
  | exited
deriving DecidableEq, Repr

/-- State of the Monitor's goroutine/`Stop` interleaving. -/
structure ChanState where
  pc : GoPC
  cancelled : Bool
  closed : Bool
  sentAfterClose : Bool
deriving DecidableEq, Repr

/-- The atomic steps of the goroutine and of `Stop`. -/
inductive ChanAction where
  /-- Step where the `select` receives a Docker event and enters `handleDockerEvent`. -/
  | recvEvent
  /-- Step where `handleDockerEvent` performs `m.activityChan <- activityEvent`. -/
  | goSend
  /-- Step where the `select` observes `<-m.ctx.Done()` and the goroutine returns. -/
  | observeCancel
  /-- Step where `Stop` runs `m.cancel()`. -/
  | stopCancel
  /-- Step where `Stop` runs `close(m.activityChan)` (sequenced after `m.cancel()`). -/
  | stopClose
deriving DecidableEq, Repr

/-- One enabled transition; `none` when the step is not enabled in `s`. -/
def chanStep (s : ChanState) : ChanAction → Option ChanState
  | .recvEvent =>
    if s.pc = GoPC.selecting then some { s with pc := GoPC.handling } else none
  | .goSend =>
    if s.pc = GoPC.handling then
      some { s with pc := GoPC.selecting, sentAfterClose := s.sentAfterClose || s.closed }
    else none
  | .observeCancel =>
    if s.pc = GoPC.selecting ∧ s.cancelled = true then
      some { s with pc := GoPC.exited }
    else none
  | .stopCancel =>
    if s.cancelled = false then some { s with cancelled := true } else none
  | .stopClose =>
    if s.cancelled = true ∧ s.closed = false then some { s with closed := true } else none

/-- Run a sequence of steps, failing if any step is not enabled. -/
def chanRun (s : ChanState) : List ChanAction → Option ChanState
  | [] => some s
  | a :: rest =>
    match chanStep s a with
    | none => none
    | some s2 => chanRun s2 rest

/-- The initial state: goroutine at its `select`, `Stop` not yet called. -/
def chanInit : ChanState :=
  { pc := GoPC.selecting, cancelled := false, closed := false, sentAfterClose := false }

/-! ### Formalisation of the spec's wording (for refinement-style claims) -/

/-- The exclusion filter as the spec words it: some configured substring
occurs in the corresponding field (pure value, no logging/panic). -/
def isExcludedB (m : MonitorCfg) (containerID containerName imageName : String) : Bool :=
  m.excludeContainers.any
      (fun excluded => strContains containerName excluded || strContains containerID excluded)
    || m.excludeImages.any (fun excluded => strContains imageName excluded)

/-- Whether inspecting `id` in `env` yields a configuration classified as an
Azure agent (a failed inspection counts as not classified). -/
def classifiedAgent (env : DockerEnv) (id : String) : Bool :=
  match env.inspect id with
  | .ok containerInfo => IsAzureAgentContainer containerInfo
  | .error _ => false

/-- The containers the inventory pass emits for: not excluded, and
classified as a tracked workload. -/
def keeps (env : DockerEnv) (m : MonitorCfg) (c : ContainerSummary) : Bool :=
  !(isExcludedB m c.ID (trimLeadingSlash (c.Names.headD "")) c.Image)
    && classifiedAgent env c.ID

/-- The `running` ActivityEvent the inventory pass builds for container `c`. -/
def mkRunningEvent (env : DockerEnv) (c : ContainerSummary) : ActivityEvent :=
  { ContainerID := c.ID.take 12
    ContainerName := trimLeadingSlash (c.Names.headD "")
    ImageName := c.Image
    Action := "running"
    Timestamp := env.now
    IsAzureAgent := true }

/-- The per-tick external calls of the heartbeat loop, as the spec words
them: always query the snapshot first; send a signal only on success. -/
def hbTickCalls : HBEvent → List HBCall
  | .tick (.error _) _ => [HBCall.hasActiveAgents]
  | .tick (.ok hasActivity) _ => [HBCall.hasActiveAgents, HBCall.sendActivitySignal hasActivity]
  | .stop => []

/-! ### Concrete inputs for witnesses and counterexamples -/

/-- A container identity shorter than 12 bytes (6 characters). -/
def shortID : String := "abc123"

/-- A container identity of exactly 12 bytes. -/
def fullID : String := "abc123abc123"

/-- A configuration classified as an Azure agent by its image name. -/
def vstsConfig : ContainerConfig :=
  { Image := "vsts-agent:1", Env := [], Labels := [] }

/-- The empty exclusion configuration. -/
def noExclusions : MonitorCfg := { excludeContainers := [], excludeImages := [] }

/-- One running `vsts-agent` container with a short identity; every
inspection succeeds and classifies. -/
def envPanicInventory : DockerEnv :=
  { containerList := .ok [{ ID := shortID, Names := ["/agent1"], Image := "vsts-agent:1" }]
    inspect := fun _ => .ok vstsConfig
    now := 50 }

/-- One running `vsts-agent` container with a full-length identity. -/
def envOkInventory : DockerEnv :=
  { containerList := .ok [{ ID := fullID, Names := ["/agent1"], Image := "vsts-agent:1" }]
    inspect := fun _ => .ok vstsConfig
    now := 50 }

/-- Every inspection fails (the container vanished). -/
def envVanished : DockerEnv :=
  { containerList := .ok [], inspect := fun _ => .error "No such container", now := 50 }

/-- Every inspection succeeds and classifies as an Azure agent. -/
def envInspectAgent : DockerEnv :=
  { containerList := .ok [], inspect := fun _ => .ok vstsConfig, now := 50 }

/-- Environment `envOkInventory` observed at clock 100. -/
def envClockA : DockerEnv := { envOkInventory with now := 100 }

/-- Environment `envOkInventory` observed at clock 200. -/
def envClockB : DockerEnv := { envOkInventory with now := 200 }

/-- A live `die` event whose actor has a short identity. -/
def dieEventShort : DockerEventMsg :=
  { typeIsContainer := true, action := "die", actorID := shortID
    attrName := "agent1", attrImage := "vsts-agent:1", time := 77 }

/-- A live `die` event whose actor has a full-length identity. -/
def dieEventFull : DockerEventMsg := { dieEventShort with actorID := fullID }

/-- A live `start` event whose actor has a short identity. -/
def startEventShort : DockerEventMsg := { dieEventShort with action := "start" }

/-- A live `start` event whose actor has a full-length identity. -/
def startEventFull : DockerEventMsg :=
  { dieEventShort with action := "start", actorID := fullID }

/-- The ActivityEvent `handleDockerEvent` emits for `startEventFull` in
`envInspectAgent`. -/
def evStartFull : ActivityEvent :=
  { ContainerID := "abc123abc123", ContainerName := "agent1"
    ImageName := "vsts-agent:1", Action := "start", Timestamp := 77
    IsAzureAgent := true }

/-- The ActivityEvent the inventory pass emits in `envClockA`. -/
def evRunningA : ActivityEvent :=
  { ContainerID := "abc123abc123", ContainerName := "agent1"
    ImageName := "vsts-agent:1", Action := "running", Timestamp := 100
    IsAzureAgent := true }

/-- An AWS API environment where every call succeeds. -/
def apiOk : ECSApi := { putAttributesResult := .ok (), updateStateResult := .ok (), now := 1 }

/-- A notifier whose self-identity resolution failed (empty ARN). -/
def unresolvedNotifier : ECSNotifier := { clusterName := "prod-cluster", containerInstanceARN := "" }

/-- A two-tick heartbeat schedule: one successful snapshot, one failed one. -/
def hbSchedule : List HBEvent :=
  [HBEvent.tick (.ok true) (.ok ()), HBEvent.tick (.error "boom") (.ok ())]

/-! ### Helper lemmas -/

theorem goSlice12_eq_some {s x : String} (h : goSlice12 s = some x) :
    12 ≤ s.length ∧ x = s.take 12 := by
  unfold goSlice12 at h
  split at h
  · exact ⟨by assumption, (Option.some.inj h).symm⟩
  · exact absurd h (by simp)

theorem goSlice12_of_ge {s : String} (h : 12 ≤ s.length) :
    goSlice12 s = some (s.take 12) := by
  unfold goSlice12
  exact if_pos h

/-- On identities of at least 12 bytes `isExcluded` does not panic and its
Boolean result is the pure double-substring test `isExcludedB`. -/
theorem isExcluded_eq_isExcludedB (m : MonitorCfg) (id name img : String)
    (h : 12 ≤ id.length) :
    ∃ logs, isExcluded m id name img = some (isExcludedB m id name img, logs) := by
  unfold isExcluded isExcludedB
  cases hc : m.excludeContainers.find?
      (fun excluded => strContains name excluded || strContains id excluded) with
  | some excluded =>
    refine ⟨[LogEntry.excludedByContainer name (id.take 12) excluded], ?_⟩
    have hmem := List.mem_of_find?_eq_some hc
    have hp := List.find?_some hc
    have hany : m.excludeContainers.any
        (fun excluded => strContains name excluded || strContains id excluded) = true :=
      List.any_eq_true.mpr ⟨excluded, hmem, hp⟩
    rw [goSlice12_of_ge h, hany]
    simp
  | none =>
    have hanyc : m.excludeContainers.any
        (fun excluded => strContains name excluded || strContains id excluded) = false := by
      rw [List.any_eq_false]
      intro x hx
      simpa using List.find?_eq_none.mp hc x hx
    cases hi : m.excludeImages.find? (fun excluded => strContains img excluded) with
    | some excluded =>
      refine ⟨[LogEntry.excludedByImage name (id.take 12) excluded], ?_⟩
      have hmem := List.mem_of_find?_eq_some hi
      have hp := List.find?_some hi
      have hany : m.excludeImages.any (fun excluded => strContains img excluded) = true :=
        List.any_eq_true.mpr ⟨excluded, hmem, hp⟩
      rw [goSlice12_of_ge h, hanyc, hany]
      simp
    | none =>
      have hanyi : m.excludeImages.any (fun excluded => strContains img excluded) = false := by
        rw [List.any_eq_false]
        intro x hx
        simpa using List.find?_eq_none.mp hi x hx
      rw [hanyc, hanyi]
      simp

/-! ### Claim theorems -/

/-- C1: `IsAzureAgentContainer` returns true iff (a) the lowercased image
contains both "azure" and "agent", or contains "azp" or "vsts"; or (b) some
label has "azure" in its lowercased key or value and "agent" in its
lowercased key or value; or (c) some environment entry's lowercased text
contains "azp_" or "vsts_".  In particular the image "nginx:latest" with no
matching env or labels yields false. -/
theorem isAzureAgentContainer_spec (c : ContainerConfig) :
    (IsAzureAgentContainer c = true ↔
      ((strContains (goToLower c.Image) "azure" && strContains (goToLower c.Image) "agent") = true
        ∨ (strContains (goToLower c.Image) "azp" || strContains (goToLower c.Image) "vsts") = true
        ∨ (∃ kv ∈ c.Labels,
            ((strContains (goToLower kv.1) "azure" || strContains (goToLower kv.2) "azure")
              && (strContains (goToLower kv.1) "agent"
                  || strContains (goToLower kv.2) "agent")) = true)
        ∨ ∃ env ∈ c.Env,
            (strContains (goToLower env) "azp_" || strContains (goToLower env) "vsts_") = true))
    ∧ IsAzureAgentContainer ⟨"nginx:latest", [], []⟩ = false := by
  constructor
  · by_cases h1 : (strContains (goToLower c.Image) "azure"
        && strContains (goToLower c.Image) "agent") = true
    · simp [IsAzureAgentContainer, h1]
    · by_cases h2 : (strContains (goToLower c.Image) "azp"
          || strContains (goToLower c.Image) "vsts") = true
      · simp [IsAzureAgentContainer, h1, h2]
      · by_cases h3 : c.Labels.any (fun kv =>
            (strContains (goToLower kv.1) "azure" || strContains (goToLower kv.2) "azure")
              && (strContains (goToLower kv.1) "agent"
                || strContains (goToLower kv.2) "agent")) = true
        · have hL : IsAzureAgentContainer c = true := by
            simp [IsAzureAgentContainer, h1, h2, h3]
          simp only [hL, true_iff]
          exact Or.inr (Or.inr (Or.inl (List.any_eq_true.mp h3)))
        · have hL : IsAzureAgentContainer c
              = c.Env.any (fun env =>
                  strContains (goToLower env) "azp_" || strContains (goToLower env) "vsts_") := by
            simp [IsAzureAgentContainer, h1, h2, h3]
          rw [hL]
          constructor
          · intro h
            exact Or.inr (Or.inr (Or.inr (List.any_eq_true.mp h)))
          · rintro (hA | hB | hC | hD)
            · exact absurd hA h1
            · exact absurd hB h2
            · exact absurd (List.any_eq_true.mpr hC) h3
            · exact List.any_eq_true.mpr hD
  · decide

/-- C2: on container identities of at least 12 bytes, `isExcluded` returns
true iff some excluded-container entry is a substring of the container name
or identity, or some excluded-image entry is a substring of the image; and
it returns false exactly otherwise. -/
theorem isExcluded_spec (m : MonitorCfg) (containerID containerName imageName : String)
    (h : 12 ≤ containerID.length) :
    ((isExcluded m containerID containerName imageName).map Prod.fst = some true ↔
      ((∃ excluded ∈ m.excludeContainers,
          strContains containerName excluded = true ∨ strContains containerID excluded = true)
        ∨ ∃ excluded ∈ m.excludeImages, strContains imageName excluded = true))
    ∧ ((isExcluded m containerID containerName imageName).map Prod.fst = some false ↔
      ¬((∃ excluded ∈ m.excludeContainers,
          strContains containerName excluded = true ∨ strContains containerID excluded = true)
        ∨ ∃ excluded ∈ m.excludeImages, strContains imageName excluded = true)) := by
  obtain ⟨logs, hrun⟩ := isExcluded_eq_isExcludedB m containerID containerName imageName h
  rw [hrun]
  cases hb : isExcludedB m containerID containerName imageName with
  | true =>
    have : ((∃ excluded ∈ m.excludeContainers,
          strContains containerName excluded = true ∨ strContains containerID excluded = true)
        ∨ ∃ excluded ∈ m.excludeImages, strContains imageName excluded = true) := by
      have := hb
      unfold isExcludedB at this
      simp only [Bool.or_eq_true, List.any_eq_true] at this
      tauto
    simp_all
  | false =>
    have : ¬((∃ excluded ∈ m.excludeContainers,
          strContains containerName excluded = true ∨ strContains containerID excluded = true)
        ∨ ∃ excluded ∈ m.excludeImages, strContains imageName excluded = true) := by
      have := hb
      unfold isExcludedB at this
      simp only [Bool.or_eq_false_iff, List.any_eq_false, Bool.or_eq_true] at this
      push_neg
      constructor
      · intro x hx
        simpa using this.1 x hx
      · intro x hx
        simpa using this.2 x hx
    simp_all

/-- C2 witness: excluded-image list `["azure-agent"]` matches the image
"myrepo/azure-agent:latest" (and an unrelated image does not match). -/
theorem isExcluded_spec_witness :
    ((isExcluded ⟨[], ["azure-agent"]⟩ "abc123abc123" "c" "myrepo/azure-agent:latest").map Prod.fst
      = some true)
    ∧ ((isExcluded ⟨[], ["azure-agent"]⟩ "abc123abc123" "c" "debian:stable").map Prod.fst
      = some false) := by
  constructor
  · exact (isExcluded_spec ⟨[], ["azure-agent"]⟩ "abc123abc123" "c" "myrepo/azure-agent:latest"
      (by decide)).1.mpr (Or.inr ⟨"azure-agent", by decide, by decide⟩)
  · exact (isExcluded_spec ⟨[], ["azure-agent"]⟩ "abc123abc123" "c" "debian:stable"
      (by decide)).2.mpr (by decide)

/-- C3: with an unresolved self-identity (empty container-instance ARN),
`SendActivitySignal` returns success with no external API call for either
Boolean, while `SetProtectionEnabled` returns an error with no external API
call for either Boolean. -/
theorem notifier_unresolved_spec (api : ECSApi) (n : ECSNotifier)
    (h : n.containerInstanceARN = "") (hasActivity enabled : Bool) :
    SendActivitySignal api n hasActivity = (.ok (), [])
    ∧ ∃ msg, SetProtectionEnabled api n enabled = (.error msg, []) := by
  constructor
  · unfold SendActivitySignal
    rw [h]
    simp
  · refine ⟨"container instance ARN not set", ?_⟩
    unfold SetProtectionEnabled
    rw [h]
    simp

/-- On containers with a nonempty name list and an identity of at least 12
bytes, the inventory loop body does not panic: it emits exactly one
`running` event when the container passes the exclusion filter and the
classifier, and nothing otherwise. -/
theorem scanContainer_eq (env : DockerEnv) (m : MonitorCfg) (c : ContainerSummary)
    (hn : c.Names ≠ []) (h12 : 12 ≤ c.ID.length) :
    ∃ logs, scanContainer env m c
      = some ((if keeps env m c then [mkRunningEvent env c] else []), logs) := by
  cases hnames : c.Names with
  | nil => exact absurd hnames hn
  | cons name0 tl =>
    obtain ⟨logs, hrun⟩ :=
      isExcluded_eq_isExcludedB m c.ID (trimLeadingSlash name0) c.Image h12
    have hhd : c.Names.headD "" = name0 := by rw [hnames]; rfl
    cases hb : isExcludedB m c.ID (trimLeadingSlash name0) c.Image with
    | true =>
      refine ⟨logs, ?_⟩
      have hk : keeps env m c = false := by
        unfold keeps
        rw [hhd, hb]
        rfl
      simp only [scanContainer, hnames, List.head?, hrun, hb, hk]
      rfl
    | false =>
      have hkeq : keeps env m c = classifiedAgent env c.ID := by
        unfold keeps
        rw [hhd, hb]
        rfl
      cases hins : env.inspect c.ID with
      | error e =>
        refine ⟨logs ++ [LogEntry.inventoryInspectWarn c.ID], ?_⟩
        have hk : keeps env m c = false := by
          rw [hkeq]
          unfold classifiedAgent
          rw [hins]
        simp only [scanContainer, hnames, List.head?, hrun, hb, hins, hk]
        rfl
      | ok containerInfo =>
        cases hcls : IsAzureAgentContainer containerInfo with
        | true =>
          refine ⟨logs, ?_⟩
          have hk : keeps env m c = true := by
            rw [hkeq]
            unfold classifiedAgent
            rw [hins]
            exact hcls
          simp only [scanContainer, hnames, List.head?, hrun, hb, hins, hcls,
            goSlice12_of_ge h12, hk]
          simp only [if_true, mkRunningEvent, hhd]
        | false =>
          refine ⟨logs, ?_⟩
          have hk : keeps env m c = false := by
            rw [hkeq]
            unfold classifiedAgent
            rw [hins]
            exact hcls
          simp only [scanContainer, hnames, List.head?, hrun, hb, hins, hcls, hk]
          rfl

/-- The whole inventory loop, under the same preconditions: the emitted
events are exactly one `running` event per kept container, in list order. -/
theorem scanContainers_eq (env : DockerEnv) (m : MonitorCfg) (cs : List ContainerSummary)
    (h : ∀ c ∈ cs, c.Names ≠ [] ∧ 12 ≤ c.ID.length) :
    ∃ logs, scanContainers env m cs
      = some ((cs.filter (keeps env m)).map (mkRunningEvent env), logs) := by
  induction cs with
  | nil => exact ⟨[], rfl⟩
  | cons c rest ih =>
    obtain ⟨hc1, hc2⟩ := h c (List.mem_cons_self c rest)
    obtain ⟨logs1, h1⟩ := scanContainer_eq env m c hc1 hc2
    obtain ⟨logs2, h2⟩ := ih (fun x hx => h x (List.mem_cons_of_mem c hx))
    refine ⟨logs1 ++ logs2, ?_⟩
    simp only [scanContainers, h1, h2]
    cases hk : keeps env m c with
    | true => simp [List.filter_cons_of_pos hk, hk]
    | false => simp [List.filter_cons_of_neg, hk]

/-- C4: the synchronous part of `StartMonitoring` fails (with the wrapped
setup error) exactly when the initial container enumeration fails; when the
enumeration succeeds (and no identity is short or name list empty, i.e. no
panic), it sends to the activity channel exactly one `running` event per
running container that passes the exclusion filter and the classifier, in
inventory order, and nothing for the others — all before subscribing to the
live stream. -/
theorem startMonitoring_spec (env : DockerEnv) (m : MonitorCfg) :
    (∀ e, env.containerList = .error e →
      StartMonitoringSync env m
        = some (.error ("failed to get initial agents: failed to list containers: " ++ e)))
    ∧ (∀ cs, env.containerList = .ok cs →
        (∀ c ∈ cs, c.Names ≠ [] ∧ 12 ≤ c.ID.length) →
        ∃ logs, StartMonitoringSync env m
          = some (.ok ((cs.filter (keeps env m)).map (mkRunningEvent env), logs))) := by
  constructor
  · intro e he
    simp only [StartMonitoringSync, GetRunningAzureAgents, he]
    rfl
  · intro cs hcs h
    obtain ⟨logs, hscan⟩ := scanContainers_eq env m cs h
    refine ⟨logs, ?_⟩
    simp only [StartMonitoringSync, GetRunningAzureAgents, hcs, hscan]

/-- C4 witness: a concrete environment with one running, classified
container; the enumeration succeeds and exactly its `running` event is
emitted. -/
theorem startMonitoring_spec_witness :
    ∃ logs, StartMonitoringSync envOkInventory noExclusions
      = some (.ok (([⟨fullID, ["/agent1"], "vsts-agent:1"⟩].filter
          (keeps envOkInventory noExclusions)).map (mkRunningEvent envOkInventory), logs)) :=
  (startMonitoring_spec envOkInventory noExclusions).2
    [⟨fullID, ["/agent1"], "vsts-agent:1"⟩] rfl (by decide)

/-- Case analysis of the inventory loop body: it panics, emits nothing, or
emits exactly one `running` event whose identity is the (non-panicking)
12-byte slice of the container identity. -/
theorem scanContainer_cases (env : DockerEnv) (m : MonitorCfg) (c : ContainerSummary) :
    scanContainer env m c = none
    ∨ (∃ logs, scanContainer env m c = some ([], logs))
    ∨ (∃ id12 logs, goSlice12 c.ID = some id12
        ∧ scanContainer env m c
          = some ([{ ContainerID := id12, ContainerName := trimLeadingSlash (c.Names.headD ""),
                     ImageName := c.Image, Action := "running", Timestamp := env.now,
                     IsAzureAgent := true }], logs)) := by
  cases hnames : c.Names with
  | nil => exact Or.inl (by simp only [scanContainer, hnames, List.head?])
  | cons name0 tl =>
    cases hex : isExcluded m c.ID (trimLeadingSlash name0) c.Image with
    | none => exact Or.inl (by simp only [scanContainer, hnames, List.head?, hex])
    | some pair =>
      obtain ⟨ b, logs0 ⟩ := pair
      cases b with
      | true =>
        exact Or.inr (Or.inl ⟨ logs0, by simp only [scanContainer, hnames, List.head?, hex] ⟩)
      | false =>
        cases hins : env.inspect c.ID with
        | error e =>
          exact Or.inr (Or.inl ⟨ logs0 ++ [LogEntry.inventoryInspectWarn c.ID],
            by simp only [scanContainer, hnames, List.head?, hex, hins] ⟩)
        | ok containerInfo =>
          cases hcls : IsAzureAgentContainer containerInfo with
          | false =>
            exact Or.inr (Or.inl ⟨ logs0,
              by simp only [scanContainer, hnames, List.head?, hex, hins, hcls]; rfl ⟩)
          | true =>
            cases hsl : goSlice12 c.ID with
            | none =>
              refine Or.inl ?_
              simp only [scanContainer, hnames, List.head?, hex, hins, hcls, hsl]
              rfl
            | some id12 =>
              refine Or.inr (Or.inr ⟨ id12, logs0, rfl, ?_ ⟩)
              have hhd : c.Names.headD "" = name0 := by rw [hnames]; rfl
              simp only [scanContainer, hnames, List.head?, hex, hins, hcls, hsl, hhd]
              rfl

/-- Any event the inventory loop body emits is flagged as an Azure agent,
carries the 12-byte identity prefix of the scanned container, and is stamped
with the scan-time clock and action `running`. -/
theorem scanContainer_emits (env : DockerEnv) (m : MonitorCfg) (c : ContainerSummary)
    (evs : List ActivityEvent) (logs : List LogEntry)
    (h : scanContainer env m c = some (evs, logs)) :
    ∀ ev ∈ evs, ev.IsAzureAgent = true ∧ ev.ContainerID = c.ID.take 12
      ∧ 12 ≤ c.ID.length ∧ ev.Timestamp = env.now ∧ ev.Action = "running" := by
  rcases scanContainer_cases env m c with hc | ⟨ logs2, hc ⟩ | ⟨ id12, logs2, hsl, hc ⟩
  · rw [hc] at h
    exact absurd h (by simp)
  · rw [hc] at h
    have h1 : ([] : List ActivityEvent) = evs := congrArg Prod.fst (Option.some.inj h)
    subst h1
    intro ev hev
    exact absurd hev (by simp)
  · rw [hc] at h
    obtain ⟨ h12, hid ⟩ := goSlice12_eq_some hsl
    have h1 : [({ ContainerID := id12
                  ContainerName := trimLeadingSlash (c.Names.headD "")
                  ImageName := c.Image
                  Action := "running"
                  Timestamp := env.now
                  IsAzureAgent := true } : ActivityEvent)] = evs :=
      congrArg Prod.fst (Option.some.inj h)
    subst h1
    intro ev hev
    rw [List.mem_singleton] at hev
    subst hev
    exact ⟨ rfl, hid ▸ rfl, h12, rfl, rfl ⟩

/-- Lemma `scanContainer_emits` lifted to the whole inventory loop. -/
theorem scanContainers_emits (env : DockerEnv) (m : MonitorCfg) (cs : List ContainerSummary)
    (evs : List ActivityEvent) (logs : List LogEntry)
    (h : scanContainers env m cs = some (evs, logs)) :
    ∀ ev ∈ evs, ev.IsAzureAgent = true
      ∧ (∃ c ∈ cs, ev.ContainerID = c.ID.take 12 ∧ 12 ≤ c.ID.length)
      ∧ ev.Timestamp = env.now ∧ ev.Action = "running" := by
  induction cs generalizing evs logs with
  | nil =>
    obtain ⟨rfl, -⟩ : evs = [] ∧ logs = [] := by
      cases h
      exact ⟨rfl, rfl⟩
    intro ev hev
    exact absurd hev (by simp)
  | cons c rest ih =>
    rw [scanContainers] at h
    cases h1 : scanContainer env m c with
    | none =>
      rw [h1] at h
      exact absurd h (by simp)
    | some pair1 =>
      obtain ⟨evs1, logs1⟩ := pair1
      rw [h1] at h
      cases h2 : scanContainers env m rest with
      | none =>
        rw [h2] at h
        exact absurd h (by simp)
      | some pair2 =>
        obtain ⟨evs2, logs2⟩ := pair2
        rw [h2] at h
        obtain ⟨rfl, -⟩ : evs = evs1 ++ evs2 ∧ logs = logs1 ++ logs2 := by
          cases h
          exact ⟨rfl, rfl⟩
        intro ev hev
        rcases List.mem_append.mp hev with hev1 | hev2
        · obtain ⟨ha, hb, hc, hd, he⟩ := scanContainer_emits env m c evs1 logs1 h1 ev hev1
          exact ⟨ha, ⟨c, List.mem_cons_self c rest, hb, hc⟩, hd, he⟩
        · obtain ⟨ha, ⟨c2, hc2, hb, hc⟩, hd, he⟩ := ih evs2 logs2 h2 ev hev2
          exact ⟨ha, ⟨c2, List.mem_cons_of_mem c hc2, hb, hc⟩, hd, he⟩

/-- Case analysis of the live-event handler: it panics, emits nothing, or
emits exactly one event built from the actor identity slice, attributes,
action and event-source time. -/
theorem handleDockerEvent_cases (env : DockerEnv) (m : MonitorCfg) (event : DockerEventMsg) :
    handleDockerEvent env m event = none
    ∨ (∃ logs, handleDockerEvent env m event = some ([], logs))
    ∨ (∃ id12 logs, goSlice12 event.actorID = some id12
        ∧ isExcludedB m event.actorID event.attrName event.attrImage = false
        ∧ classifiedAgent env event.actorID = true
        ∧ handleDockerEvent env m event
          = some ([{ ContainerID := id12, ContainerName := event.attrName,
                     ImageName := event.attrImage, Action := event.action,
                     Timestamp := event.time, IsAzureAgent := true }], logs)) := by
  by_cases ht : event.typeIsContainer = true
  · by_cases ha : event.action ∈ interestingActions
    · cases hins : env.inspect event.actorID with
      | error e =>
        cases hsl : goSlice12 event.actorID with
        | none =>
          refine Or.inl ?_
          cases hterm : isTerminalAction event.action with
          | true => simp [handleDockerEvent, ht, ha, hins, hsl, hterm]
          | false => simp [handleDockerEvent, ht, ha, hins, hsl, hterm]
        | some id12 =>
          refine Or.inr (Or.inl ?_)
          cases hterm : isTerminalAction event.action with
          | true =>
            exact ⟨ [LogEntry.alreadyRemoved id12],
              by simp [handleDockerEvent, ht, ha, hins, hsl, hterm] ⟩
          | false =>
            exact ⟨ [LogEntry.inspectFailed id12],
              by simp [handleDockerEvent, ht, ha, hins, hsl, hterm] ⟩
      | ok containerInfo =>
        cases hex : isExcluded m event.actorID event.attrName event.attrImage with
        | none => exact Or.inl (by simp [handleDockerEvent, ht, ha, hins, hex])
        | some pair =>
          obtain ⟨ b, logs0 ⟩ := pair
          cases b with
          | true =>
            exact Or.inr (Or.inl ⟨ logs0, by simp [handleDockerEvent, ht, ha, hins, hex] ⟩)
          | false =>
            cases hcls : IsAzureAgentContainer containerInfo with
            | false =>
              exact Or.inr (Or.inl ⟨ logs0,
                by simp [handleDockerEvent, ht, ha, hins, hex, hcls] ⟩)
            | true =>
              cases hsl : goSlice12 event.actorID with
              | none =>
                exact Or.inl (by simp [handleDockerEvent, ht, ha, hins, hex, hcls, hsl])
              | some id12 =>
                have h12 := (goSlice12_eq_some hsl).1
                have hexb : isExcludedB m event.actorID event.attrName event.attrImage
                    = false := by
                  obtain ⟨ logsE, hrun ⟩ :=
                    isExcluded_eq_isExcludedB m event.actorID event.attrName event.attrImage h12
                  rw [hex] at hrun
                  exact (congrArg Prod.fst (Option.some.inj hrun)).symm
                have hcla : classifiedAgent env event.actorID = true := by
                  unfold classifiedAgent
                  rw [hins]
                  exact hcls
                exact Or.inr (Or.inr ⟨ id12,
                  logs0 ++ [LogEntry.activity event.action event.attrName id12], rfl, hexb, hcla,
                  by simp [handleDockerEvent, ht, ha, hins, hex, hcls, hsl] ⟩)
    · exact Or.inr (Or.inl ⟨ [], by simp [handleDockerEvent, ht, ha] ⟩)
  · rw [Bool.not_eq_true] at ht
    exact Or.inr (Or.inl ⟨ [], by simp [handleDockerEvent, ht] ⟩)

/-- Any event the live-event handler emits is flagged as an Azure agent and
carries the 12-byte prefix of the actor identity, the event action, the
actor attributes, and the event-source timestamp. -/
theorem handleDockerEvent_emits (env : DockerEnv) (m : MonitorCfg) (event : DockerEventMsg)
    (evs : List ActivityEvent) (logs : List LogEntry)
    (h : handleDockerEvent env m event = some (evs, logs)) :
    ∀ ev ∈ evs, ev.IsAzureAgent = true ∧ ev.ContainerID = event.actorID.take 12
      ∧ 12 ≤ event.actorID.length ∧ ev.Timestamp = event.time
      ∧ ev.Action = event.action ∧ ev.ContainerName = event.attrName
      ∧ ev.ImageName = event.attrImage := by
  rcases handleDockerEvent_cases env m event with
    hc | ⟨ logs2, hc ⟩ | ⟨ id12, logs2, hsl, hexb, hcla, hc ⟩
  · rw [hc] at h
    exact absurd h (by simp)
  · rw [hc] at h
    have h1 : ([] : List ActivityEvent) = evs := congrArg Prod.fst (Option.some.inj h)
    subst h1
    intro ev hev
    exact absurd hev (by simp)
  · rw [hc] at h
    obtain ⟨ h12, hid ⟩ := goSlice12_eq_some hsl
    have h1 : [({ ContainerID := id12
                  ContainerName := event.attrName
                  ImageName := event.attrImage
                  Action := event.action
                  Timestamp := event.time
                  IsAzureAgent := true } : ActivityEvent)] = evs :=
      congrArg Prod.fst (Option.some.inj h)
    subst h1
    intro ev hev
    rw [List.mem_singleton] at hev
    subst hev
    exact ⟨ rfl, hid ▸ rfl, h12, rfl, rfl, rfl, rfl ⟩

/-- Inversion: a successful `GetRunningAzureAgents` run with a successful
enumeration comes from a successful scan of the listed containers. -/
theorem getRunningAzureAgents_inv (env : DockerEnv) (m : MonitorCfg)
    (cs : List ContainerSummary) (evs : List ActivityEvent) (logs : List LogEntry)
    (hcs : env.containerList = .ok cs)
    (h : GetRunningAzureAgents env m = some (.ok (evs, logs))) :
    scanContainers env m cs = some (evs, logs) := by
  simp only [GetRunningAzureAgents, hcs] at h
  cases hscan : scanContainers env m cs with
  | none =>
    rw [hscan] at h
    exact absurd h (by simp)
  | some pair =>
    obtain ⟨evs2, logs2⟩ := pair
    rw [hscan] at h
    have h2 : evs2 = evs ∧ logs2 = logs := by simpa using h
    rw [h2.1, h2.2]

/-- C5: the live-event handler emits nothing for non-container events and
actions outside the allow-list; for allowed actions whose re-inspection
fails it drops the event — with a non-warning log for the terminal actions
stop/kill/die and a warning log otherwise; and it emits only events that
pass the exclusion filter and the classifier. -/
theorem handleDockerEvent_spec (env : DockerEnv) (m : MonitorCfg) (event : DockerEventMsg)
    (h12 : 12 ≤ event.actorID.length) :
    ((event.typeIsContainer = false ∨ event.action ∉ interestingActions) →
      handleDockerEvent env m event = some ([], []))
    ∧ (∀ err, event.typeIsContainer = true → event.action ∈ interestingActions →
        env.inspect event.actorID = .error err → isTerminalAction event.action = true →
        handleDockerEvent env m event
          = some ([], [LogEntry.alreadyRemoved (event.actorID.take 12)])
        ∧ ∀ l ∈ [LogEntry.alreadyRemoved (event.actorID.take 12)], isWarning l = false)
    ∧ (∀ err, event.typeIsContainer = true → event.action ∈ interestingActions →
        env.inspect event.actorID = .error err → isTerminalAction event.action = false →
        handleDockerEvent env m event
          = some ([], [LogEntry.inspectFailed (event.actorID.take 12)])
        ∧ ∃ l ∈ [LogEntry.inspectFailed (event.actorID.take 12)], isWarning l = true)
    ∧ (∀ evs logs, handleDockerEvent env m event = some (evs, logs) → evs ≠ [] →
        isExcludedB m event.actorID event.attrName event.attrImage = false
        ∧ classifiedAgent env event.actorID = true) := by
  refine ⟨?_, ?_, ?_, ?_⟩
  · rintro (ht | ha)
    · simp [handleDockerEvent, ht]
    · cases ht2 : event.typeIsContainer with
      | false => simp [handleDockerEvent, ht2]
      | true => simp [handleDockerEvent, ht2, ha]
  · intro err ht ha hins hterm
    constructor
    · simp [handleDockerEvent, ht, ha, hins, hterm, goSlice12_of_ge h12]
    · intro l hl
      rw [List.mem_singleton] at hl
      subst hl
      rfl
  · intro err ht ha hins hterm
    constructor
    · simp [handleDockerEvent, ht, ha, hins, hterm, goSlice12_of_ge h12]
    · exact ⟨LogEntry.inspectFailed (event.actorID.take 12), List.mem_singleton.mpr rfl, rfl⟩
  · intro evs logs h hne
    rcases handleDockerEvent_cases env m event with
      hc | ⟨logs2, hc⟩ | ⟨id12, logs2, hsl, hexb, hcla, hc⟩
    · rw [hc] at h
      exact absurd h (by simp)
    · rw [hc] at h
      have h1 : ([] : List ActivityEvent) = evs := congrArg Prod.fst (Option.some.inj h)
      exact absurd h1.symm hne
    · exact ⟨hexb, hcla⟩

/-- C5 witness: a live `die` event for a vanished container with a
full-length identity is dropped with only the non-warning
"already removed" log. -/
theorem handleDockerEvent_spec_witness :
    handleDockerEvent envVanished noExclusions dieEventFull
      = some ([], [LogEntry.alreadyRemoved (dieEventFull.actorID.take 12)])
    ∧ ∀ l ∈ [LogEntry.alreadyRemoved (dieEventFull.actorID.take 12)], isWarning l = false :=
  (handleDockerEvent_spec envVanished noExclusions dieEventFull (by decide)).2.1
    "No such container" rfl (by decide) rfl rfl

/-- C6 counterexample: the inventory pass stamps events with the scan-time
clock (`time.Now()`), not an event-source time: the same container scanned
at clocks 100 and 200 yields events with timestamps 100 and 200. -/
theorem inventory_timestamp_counterexample :
    GetRunningAzureAgents envClockA noExclusions = some (.ok ([evRunningA], []))
    ∧ GetRunningAzureAgents envClockB noExclusions
      = some (.ok ([{ evRunningA with Timestamp := 200 }], []))
    ∧ evRunningA.Timestamp = envClockA.now
    ∧ { evRunningA with Timestamp := 200 }.Timestamp = envClockB.now := by
  exact ⟨by decide, by decide, rfl, rfl⟩

/-- C6 (amended): events produced from live stream events carry the
event-source time (`event.Time`), while events produced by the initial
inventory pass carry the observation time of the scan (`time.Now()`). -/
theorem timestamp_source_spec (env : DockerEnv) (m : MonitorCfg) :
    (∀ event evs logs, handleDockerEvent env m event = some (evs, logs) →
      ∀ ev ∈ evs, ev.Timestamp = event.time)
    ∧ (∀ cs evs logs, env.containerList = .ok cs →
      GetRunningAzureAgents env m = some (.ok (evs, logs)) →
      ∀ ev ∈ evs, ev.Timestamp = env.now) := by
  constructor
  · intro event evs logs h ev hev
    exact (handleDockerEvent_emits env m event evs logs h ev hev).2.2.2.1
  · intro cs evs logs hcs h ev hev
    exact (scanContainers_emits env m cs evs logs
      (getRunningAzureAgents_inv env m cs evs logs hcs h) ev hev).2.2.1

/-- C6 (amended) witness: the inventory event of `envClockA` is stamped with
that environment's clock, and a live `start` event is stamped with the
event-source time. -/
theorem timestamp_source_spec_witness :
    evRunningA.Timestamp = envClockA.now ∧ evStartFull.Timestamp = startEventFull.time :=
  ⟨(timestamp_source_spec envClockA noExclusions).2 [⟨fullID, ["/agent1"], "vsts-agent:1"⟩]
      [evRunningA] [] rfl (by decide) evRunningA (List.mem_singleton.mpr rfl),
   (timestamp_source_spec envInspectAgent noExclusions).1 startEventFull [evStartFull]
      [LogEntry.activity "start" "agent1" "abc123abc123"] (by decide) evStartFull
      (List.mem_singleton.mpr rfl)⟩

/-- C9: every event either emission site places on the activity channel has
its classification flag set and carries the 12-byte prefix of the full
container identity. -/
theorem emitted_event_invariant (env : DockerEnv) (m : MonitorCfg) :
    (∀ cs evs logs, env.containerList = .ok cs →
      GetRunningAzureAgents env m = some (.ok (evs, logs)) →
      ∀ ev ∈ evs, ev.IsAzureAgent = true
        ∧ ∃ c ∈ cs, ev.ContainerID = c.ID.take 12 ∧ 12 ≤ c.ID.length)
    ∧ (∀ event evs logs, handleDockerEvent env m event = some (evs, logs) →
      ∀ ev ∈ evs, ev.IsAzureAgent = true
        ∧ ev.ContainerID = event.actorID.take 12 ∧ 12 ≤ event.actorID.length) := by
  constructor
  · intro cs evs logs hcs h ev hev
    obtain ⟨ha, hb, -, -⟩ := scanContainers_emits env m cs evs logs
      (getRunningAzureAgents_inv env m cs evs logs hcs h) ev hev
    exact ⟨ha, hb⟩
  · intro event evs logs h ev hev
    obtain ⟨ha, hb, hc, -, -, -, -⟩ := handleDockerEvent_emits env m event evs logs h ev hev
    exact ⟨ha, hb, hc⟩

/-- C9 witness at a concrete live event emission. -/
theorem emitted_event_invariant_witness :
    evStartFull.IsAzureAgent = true
    ∧ evStartFull.ContainerID = startEventFull.actorID.take 12
    ∧ 12 ≤ startEventFull.actorID.length :=
  (emitted_event_invariant envInspectAgent noExclusions).2 startEventFull [evStartFull]
    [LogEntry.activity "start" "agent1" "abc123abc123"] (by decide) evStartFull
    (List.mem_singleton.mpr rfl)

/-- A stop-free schedule drives the heartbeat loop through every tick
without terminating it. -/
theorem startHeartbeat_stopFree (pre : List HBEvent) :
    pre.all isTick = true →
    StartHeartbeat pre = ((pre.map hbTickCalls).flatten, false) := by
  induction pre with
  | nil => intro _; rfl
  | cons e rest ih =>
    intro hpre
    rw [List.all_cons, Bool.and_eq_true] at hpre
    obtain ⟨he, hrest⟩ := hpre
    cases e with
    | stop => exact absurd he (by simp [isTick])
    | tick r s =>
      cases r with
      | error msg =>
        simp only [StartHeartbeat, ih hrest, List.map_cons, List.flatten_cons, hbTickCalls]
        rfl
      | ok b =>
        simp only [StartHeartbeat, ih hrest, List.map_cons, List.flatten_cons, hbTickCalls]
        rfl

/-- A stop after a stop-free prefix terminates the loop right there,
whatever is scheduled afterwards. -/
theorem startHeartbeat_stopAt (post : List HBEvent) (pre : List HBEvent) :
    pre.all isTick = true →
    StartHeartbeat (pre ++ HBEvent.stop :: post) = ((pre.map hbTickCalls).flatten, true) := by
  induction pre with
  | nil => intro _; rfl
  | cons e rest ih =>
    intro hpre
    rw [List.all_cons, Bool.and_eq_true] at hpre
    obtain ⟨he, hrest⟩ := hpre
    cases e with
    | stop => exact absurd he (by simp [isTick])
    | tick r s =>
      cases r with
      | error msg =>
        simp only [List.cons_append, StartHeartbeat, List.append_eq, ih hrest,
          List.map_cons, List.flatten_cons, hbTickCalls]
        rfl
      | ok b =>
        simp only [List.cons_append, StartHeartbeat, List.append_eq, ih hrest,
          List.map_cons, List.flatten_cons, hbTickCalls]
        rfl

/-- C8: each heartbeat tick first queries `HasActiveAgents`; on failure it
sends nothing and the loop continues; on success it sends the returned
Boolean; a stop wake-up terminates the loop whatever its position and
whatever follows, and a schedule without a stop never terminates it. -/
theorem startHeartbeat_spec (pre post : List HBEvent) (hpre : pre.all isTick = true) :
    StartHeartbeat (pre ++ HBEvent.stop :: post) = ((pre.map hbTickCalls).flatten, true)
    ∧ StartHeartbeat pre = ((pre.map hbTickCalls).flatten, false)
    ∧ (∀ r s, (hbTickCalls (HBEvent.tick r s)).head? = some HBCall.hasActiveAgents)
    ∧ (∀ e s, hbTickCalls (HBEvent.tick (.error e) s) = [HBCall.hasActiveAgents])
    ∧ (∀ b s, hbTickCalls (HBEvent.tick (.ok b) s)
        = [HBCall.hasActiveAgents, HBCall.sendActivitySignal b]) := by
  refine ⟨startHeartbeat_stopAt post pre hpre, startHeartbeat_stopFree pre hpre,
    ?_, fun e s => rfl, fun b s => rfl⟩
  intro r s
  cases r <;> rfl

/-- C8 witness on a concrete two-tick schedule followed by a stop and a
further (ignored) tick. -/
theorem startHeartbeat_spec_witness :
    StartHeartbeat (hbSchedule ++ HBEvent.stop :: [HBEvent.tick (.ok false) (.ok ())])
      = ((hbSchedule.map hbTickCalls).flatten, true)
    ∧ StartHeartbeat hbSchedule = ((hbSchedule.map hbTickCalls).flatten, false) :=
  ⟨(startHeartbeat_spec hbSchedule [HBEvent.tick (.ok false) (.ok ())] rfl).1,
   (startHeartbeat_spec hbSchedule [HBEvent.tick (.ok false) (.ok ())] rfl).2.1⟩

/-- C7: the shutdown invariant fails on the code.  There is an interleaving
in which the goroutine dequeues a live event and enters `handleDockerEvent`,
`Stop` then runs `cancel()` and `close(activityChan)` to completion, and the
handler finally performs its channel send — a send on the already-closed
channel (a Go runtime panic), even though `Stop` was called exactly once. -/
theorem channel_send_after_close_trace :
    (chanRun chanInit
      [ChanAction.recvEvent, ChanAction.stopCancel, ChanAction.stopClose,
        ChanAction.goSend]).map (fun s => s.sentAfterClose) = some true := by
  decide

/-- C10: with a container identity shorter than 12 bytes the Go code panics
(slice bound out of range) instead of returning: in `isExcluded` when
logging an exclusion match, in `GetRunningAzureAgents` when emitting a
matched container's event, and in `handleDockerEvent` both when logging a
vanished container and when emitting a matched event; each site is total
when the identity has at least 12 bytes. -/
theorem short_identity_panics :
    isExcluded ⟨["abc"], []⟩ shortID "agent1" "img" = none
    ∧ GetRunningAzureAgents envPanicInventory noExclusions = none
    ∧ handleDockerEvent envVanished noExclusions dieEventShort = none
    ∧ handleDockerEvent envInspectAgent noExclusions startEventShort = none
    ∧ (isExcluded ⟨["abc"], []⟩ fullID "agent1" "img").isSome = true
    ∧ (GetRunningAzureAgents envOkInventory noExclusions).isSome = true
    ∧ (handleDockerEvent envVanished noExclusions dieEventFull).isSome = true
    ∧ (handleDockerEvent envInspectAgent noExclusions startEventFull).isSome = true := by
  exact ⟨by decide, by decide, by decide, by decide, by decide, by decide, by decide, by decide⟩

/-- C3 witness at a concrete unresolved notifier. -/
theorem notifier_unresolved_spec_witness :
    (SendActivitySignal apiOk unresolvedNotifier true = (.ok (), [])
      ∧ ∃ msg, SetProtectionEnabled apiOk unresolvedNotifier true = (.error msg, []))
    ∧ (SendActivitySignal apiOk unresolvedNotifier false = (.ok (), [])
      ∧ ∃ msg, SetProtectionEnabled apiOk unresolvedNotifier false = (.error msg, [])) :=
  ⟨notifier_unresolved_spec apiOk unresolvedNotifier rfl true true,
   notifier_unresolved_spec apiOk unresolvedNotifier rfl false false⟩

end Ecsazrlc
